import Mathlib

/-!
# Zentia engine: frame scheduler, FPS smoother and character rotation

A shallow embedding of `runtime/engine.cpp` (`ZentiaEngine::run`,
`calculateDeltaTime`, `tickOneFrame`, `logicalTick`, `rendererTick`,
`calculateFPS`) and of the inline accessors of
`runtime/function/character/character.h`.

Conventions of the embedding.

* `calculateFPS` is embedded twice. `Zentia.calculateFPS` evaluates the `float`
  expressions in exact rational arithmetic; it serves the statements that
  stipulate exact arithmetic, the zero-average path (which is exact in floats
  too) and the call log of the scheduler. `Zentia.Binary32.calculateFPS` rounds
  every operation to the nearest binary32 value, as the code does; it serves the
  statements about the integer the code stores.
* `static_cast<int>` of a float truncates toward zero and is defined only when
  the truncated value is representable in a 32-bit `int`; an undefined
  conversion leaves an indeterminate value, written `none`.
* The collaborators reached through `g_runtime_global_context` are opaque: a
  call to one of them is recorded in a log, and a call through a null pointer
  stops the program.
-/

namespace Zentia

/-! ## Frame timing state and `calculateFPS` -/

/-- Largest value of a 32-bit `int`. -/
def INT_MAX : Int := 2147483647

/-- Smallest value of a 32-bit `int`. -/
def INT_MIN : Int := -2147483648

/-- Value of a float quotient `a / b` in exact arithmetic: `none` stands for the
IEEE infinity (or NaN) produced by a zero divisor, `some q` for the exact
quotient. The rounded quotient is `Binary32.div`. -/
def floatDiv (a b : ℚ) : Option ℚ :=
  if b = 0 then none else some (a / b)

/-- Truncation toward zero, the rounding of a float-to-integer conversion. -/
def truncate (q : ℚ) : Int :=
  if 0 ≤ q then ⌊q⌋ else ⌈q⌉

/-- Conversion `static_cast<int>(x)` of a float: the truncated value when it is
representable in `int`, and no defined value otherwise (infinite operand or
truncated value out of range). -/
def staticCastInt (x : Option ℚ) : Option Int :=
  match x with
  | none => none
  | some q => if INT_MIN ≤ truncate q ∧ truncate q ≤ INT_MAX then some (truncate q) else none

/-- The timing members of `ZentiaEngine`. Their declarations are in `engine.h`;
the frame counter is taken as an unbounded natural number (a counter that never
wraps), time points and durations are in seconds. -/
structure ZentiaEngine where
  m_last_tick_time_point : ℚ
  m_average_duration : ℚ
  m_frame_count : Nat
  m_fps : Option Int

/-- Smoothing constant `s_fps_alpha = 1.f / 100`. -/
def s_fps_alpha : ℚ := 1 / 100

/-- Embedding of `ZentiaEngine::calculateFPS` in exact arithmetic. The binary32
evaluation of the same function is `Binary32.calculateFPS`. -/
def calculateFPS (e : ZentiaEngine) (delta_time : ℚ) : ZentiaEngine :=
  let frame_count := e.m_frame_count + 1
  let average_duration :=
    if frame_count = 1 then delta_time
    else e.m_average_duration * (1 - s_fps_alpha) + delta_time * s_fps_alpha
  { e with
    m_frame_count := frame_count
    m_average_duration := average_duration
    m_fps := staticCastInt (floatDiv 1 average_duration) }

/-- Accessor `getFPS`. -/
def getFPS (e : ZentiaEngine) : Option Int := e.m_fps

/-- Engine state after the samples `d 1, ..., d n` have been fed to
`calculateFPS`, one call per sample, starting from `e`. -/
def afterSamples (e : ZentiaEngine) (d : Nat → ℚ) : Nat → ZentiaEngine
  | 0 => e
  | n + 1 => calculateFPS (afterSamples e d n) (d (n + 1))

/-- A scheduler that has not sampled any frame yet. -/
def freshEngine : ZentiaEngine :=
  { m_last_tick_time_point := 0, m_average_duration := 0, m_frame_count := 0, m_fps := some 0 }

/-! ## Character accessors (`character.h`) -/

/-- Value type `Vector3` of the math library (three float components). -/
structure Vector3 where
  x : ℚ
  y : ℚ
  z : ℚ
  deriving DecidableEq

/-- Value type `Quaternion` of the math library (four float components). -/
structure Quaternion where
  w : ℚ
  x : ℚ
  y : ℚ
  z : ℚ
  deriving DecidableEq

/-- Data members of `Character`. The controlled actor is kept as its object id
(`none` for a null pointer) and the camera mode as the value of its enum. -/
structure Character where
  m_position : Vector3
  m_rotation : Quaternion
  m_character_object : Option Nat
  m_rotation_buffer : Quaternion
  m_rotation_dirty : Bool
  m_original_camera_mode : Nat
  m_is_free_camera : Bool

/-- Inline setter `void setPosition(const Vector3& position) { m_position = position; }`. -/
def Character.setPosition (c : Character) (position : Vector3) : Character :=
  { c with m_position := position }

/-- Inline setter `void setRotation(const Quaternion& rotation) { m_rotation = rotation; }`. -/
def Character.setRotation (c : Character) (rotation : Quaternion) : Character :=
  { c with m_rotation := rotation }

/-- Inline getter `getPosition`. -/
def Character.getPosition (c : Character) : Vector3 := c.m_position

/-- Inline getter `getRotation`. -/
def Character.getRotation (c : Character) : Quaternion := c.m_rotation

/-! ## The frame scheduler and its collaborators -/

/-- One entry of the call log: a call to a collaborator, a reading of the
steady clock, or the scheduler's own FPS bookkeeping step. -/
inductive Call where
  | worldTick (delta_time : ℚ)
  | inputTick
  | calculateFPS (delta_time : ℚ)
  | swapLogicRenderData
  | renderTick (delta_time : ℚ)
  | renderPhysicsWorld (delta_time : ℚ)
  | pollEvents
  | setTitle (title : Option String)
  | shouldClose (answer : Bool)
  | steadyClockNow
  deriving DecidableEq

/-- The subsystem pointers of `g_runtime_global_context` that the scheduler
dereferences; `true` stands for a non-null pointer. -/
structure RuntimeGlobalContext where
  m_window_system : Bool
  m_render_system : Bool
  m_world_manager : Bool
  m_input_system : Bool
  m_physics_manager : Bool

/-- Everything `run` reads or changes. `assertActive` says whether the `ASSERT`
macro of `runtime/core/base/macro.h` checks its argument in this build, and
`physicsDebugRenderer` whether `ENABLE_PHYSICS_DEBUG_RENDERER` is defined.
`closeAnswers k` is the answer of the window to its `k`-th `shouldClose` query
and `clock k` the `k`-th reading of the steady clock, both counted from 0. -/
structure Machine where
  engine : ZentiaEngine
  context : RuntimeGlobalContext
  assertActive : Bool
  physicsDebugRenderer : Bool
  closeAnswers : Nat → Bool
  closeQueries : Nat
  clock : Nat → ℚ
  clockReads : Nat
  log : List Call

/-- Ways a computation stops without returning. `outOfFuel` is the bound of the
embedding of the `while` loop, not a behaviour of the program. -/
inductive Halt where
  | assertionFailed
  | nullDereference
  | outOfFuel
  deriving DecidableEq

/-- Outcome of a computation: a returned value, or a stop, with the machine
reached in either case. -/
inductive Result (α : Type) where
  | ok (value : α) (m : Machine)
  | halt (h : Halt) (m : Machine)

/-- Machine reached by a computation. -/
def Result.machine {α : Type} : Result α → Machine
  | .ok _ m => m
  | .halt _ m => m

/-- Reason of the stop, `none` when the computation returned. -/
def Result.halted {α : Type} : Result α → Option Halt
  | .ok _ _ => none
  | .halt h _ => some h

/-- Returned value, `none` when the computation stopped. -/
def Result.value {α : Type} : Result α → Option α
  | .ok v _ => some v
  | .halt _ _ => none

/-- Computations over the machine. -/
def Step (α : Type) : Type := Machine → Result α

/-- Sequencing: a stop ends the computation. -/
def Step.bind {α β : Type} (s : Step α) (f : α → Step β) : Step β := fun m =>
  match s m with
  | .ok a m1 => f a m1
  | .halt h m1 => .halt h m1

instance : Monad Step where
  pure a := fun m => .ok a m
  bind := Step.bind

/-- A call of a `void` member function through one of the context pointers. -/
def call (pointer : RuntimeGlobalContext → Bool) (c : Call) : Step Unit := fun m =>
  if pointer m.context then .ok () { m with log := m.log ++ [c] }
  else .halt .nullDereference m

/-- The query `m_window_system->shouldClose()`. -/
def shouldClose : Step Bool := fun m =>
  if m.context.m_window_system then
    .ok (m.closeAnswers m.closeQueries)
      { m with
        closeQueries := m.closeQueries + 1
        log := m.log ++ [Call.shouldClose (m.closeAnswers m.closeQueries)] }
  else .halt .nullDereference m

/-- The macro call `ASSERT(statement)`. -/
def ASSERT (statement : Bool) : Step Unit := fun m =>
  if statement || !m.assertActive then .ok () m else .halt .assertionFailed m

/-- Embedding of `ZentiaEngine::calculateDeltaTime`. -/
def calculateDeltaTime : Step ℚ := fun m =>
  let tick_time_point := m.clock m.clockReads
  let delta_time := tick_time_point - m.engine.m_last_tick_time_point
  .ok delta_time
    { m with
      clockReads := m.clockReads + 1
      log := m.log ++ [Call.steadyClockNow]
      engine := { m.engine with m_last_tick_time_point := tick_time_point } }

/-- Embedding of `ZentiaEngine::logicalTick`. -/
def logicalTick (delta_time : ℚ) : Step Unit := do
  call (fun g => g.m_world_manager) (Call.worldTick delta_time)
  call (fun g => g.m_input_system) Call.inputTick

/-- Embedding of `ZentiaEngine::rendererTick`. -/
def rendererTick (delta_time : ℚ) : Step Bool := do
  call (fun g => g.m_render_system) (Call.renderTick delta_time)
  return true

/-- The member call `calculateFPS(delta_time)` as a step of the frame. -/
def stepCalculateFPS (delta_time : ℚ) : Step Unit := fun m =>
  .ok () { m with engine := calculateFPS m.engine delta_time
                  log := m.log ++ [Call.calculateFPS delta_time] }

/-- Text of the window title, `"Zentia - " + std::to_string(getFPS()) + " FPS"`;
not defined when the FPS value is indeterminate. -/
def windowTitle (fps : Option Int) : Option String :=
  fps.map fun v => "Zentia - " ++ toString v ++ " FPS"

/-- The block under `#ifdef ENABLE_PHYSICS_DEBUG_RENDERER`. -/
def physicsDebugRender (delta_time : ℚ) : Step Unit := fun m =>
  if m.physicsDebugRenderer then
    call (fun g => g.m_physics_manager) (Call.renderPhysicsWorld delta_time) m
  else .ok () m

/-- Embedding of `ZentiaEngine::tickOneFrame`. -/
def tickOneFrame (delta_time : ℚ) : Step Bool := do
  logicalTick delta_time
  stepCalculateFPS delta_time
  call (fun g => g.m_render_system) Call.swapLogicRenderData
  let _ ← rendererTick delta_time
  physicsDebugRender delta_time
  call (fun g => g.m_window_system) Call.pollEvents
  let fps ← (fun m => Result.ok (getFPS m.engine) m : Step (Option Int))
  call (fun g => g.m_window_system) (Call.setTitle (windowTitle fps))
  let should_window_close ← shouldClose
  return !should_window_close

/-- The `while` loop of `run`. The loop head is always evaluated; `fuel` bounds
the number of times the loop body may run. -/
def runLoop : Nat → Step Unit
  | 0 => do
    let closing ← shouldClose
    if closing then
      return ()
    else
      fun m => Result.halt Halt.outOfFuel m
  | fuel + 1 => do
    let closing ← shouldClose
    if closing then
      return ()
    else
      let delta_time ← calculateDeltaTime
      let _ ← tickOneFrame delta_time
      runLoop fuel

/-- Embedding of `ZentiaEngine::run`, its loop body bounded by `fuel` runs. -/
def run (fuel : Nat) : Step Unit := fun m =>
  (do ASSERT m.context.m_window_system
      runLoop fuel : Step Unit) m

/-! ## Vocabulary of the statements -/

/-- All pointers dereferenced by one frame are non-null (the physics manager
only matters when the debug renderer is compiled in). -/
def Machine.collaboratorsPresent (m : Machine) : Prop :=
  m.context.m_world_manager = true ∧ m.context.m_input_system = true ∧
  m.context.m_render_system = true ∧ m.context.m_window_system = true ∧
  (m.physicsDebugRenderer = true → m.context.m_physics_manager = true)

/-- The log entries of one frame that runs with `delta_time`, publishes `fps`
and receives `answer` to its closing query. -/
def frameCalls (debug : Bool) (fps : Option Int) (delta_time : ℚ) (answer : Bool) : List Call :=
  [Call.worldTick delta_time, Call.inputTick, Call.calculateFPS delta_time,
    Call.swapLogicRenderData, Call.renderTick delta_time]
  ++ (if debug then [Call.renderPhysicsWorld delta_time] else [])
  ++ [Call.pollEvents, Call.setTitle (windowTitle fps), Call.shouldClose answer]

/-- Answer the window gives at the loop head of iteration `i` (counted from 0)
of a `run` started in `m`: every iteration makes two queries, one at the loop
head and one at the end of `tickOneFrame`. -/
def headAnswer (m : Machine) (i : Nat) : Bool := m.closeAnswers (m.closeQueries + 2 * i)

/-- Value `calculateDeltaTime` returns in the `j`-th iteration (counted from 1)
of a `run` started in `m`: the clock reading of that iteration minus the
previous one, the first one being measured from `m_last_tick_time_point`. -/
def frameDelta (m : Machine) (j : Nat) : ℚ :=
  m.clock (m.clockReads + j - 1)
    - (if j ≤ 1 then m.engine.m_last_tick_time_point else m.clock (m.clockReads + j - 2))

/-- The log entries of iteration `i` (counted from 0) of a `run` started in `m`:
the loop-head query answered "not closing", the clock reading of
`calculateDeltaTime`, and the frame ticked with the delta just computed. -/
def iterationCalls (m : Machine) (i : Nat) : List Call :=
  [Call.shouldClose false, Call.steadyClockNow]
  ++ frameCalls m.physicsDebugRenderer (afterSamples m.engine (frameDelta m) (i + 1)).m_fps
      (frameDelta m (i + 1)) (m.closeAnswers (m.closeQueries + 2 * i + 1))

/-- Concatenation `f 0 ++ f 1 ++ ... ++ f (k - 1)`. -/
def concatCalls (f : Nat → List Call) : Nat → List Call
  | 0 => []
  | k + 1 => concatCalls f k ++ f k

/-- Machine reached from `m` by one loop iteration whose head query was
answered "not closing". -/
def loopIteration (m : Machine) : Machine :=
  { m with
    engine := calculateFPS { m.engine with m_last_tick_time_point := m.clock m.clockReads }
                (m.clock m.clockReads - m.engine.m_last_tick_time_point)
    closeQueries := m.closeQueries + 2
    clockReads := m.clockReads + 1
    log := m.log ++ iterationCalls m 0 }

/-- Machine reached from `m` by a loop-head query answered "closing". -/
def closeAtHead (m : Machine) : Machine :=
  { m with closeQueries := m.closeQueries + 1, log := m.log ++ [Call.shouldClose true] }

/-- A machine with every collaborator present, a window that closes at its
fifth query, and a clock that advances by 1/50 s per reading. -/
def sampleMachine : Machine :=
  { engine := freshEngine
    context := { m_window_system := true, m_render_system := true, m_world_manager := true,
                 m_input_system := true, m_physics_manager := true }
    assertActive := true
    physicsDebugRenderer := false
    closeAnswers := fun k => decide (4 ≤ k)
    closeQueries := 0
    clock := fun k => (k + 1 : ℚ) / 50
    clockReads := 0
    log := [] }

/-- The machine `sampleMachine` without a window system. -/
def windowlessMachine : Machine :=
  { sampleMachine with context := { sampleMachine.context with m_window_system := false } }

/-- The machine `sampleMachine` without a render system. -/
def renderlessMachine : Machine :=
  { sampleMachine with context := { sampleMachine.context with m_render_system := false } }

/-- A character at the origin with identity rotation. -/
def sampleCharacter : Character :=
  { m_position := ⟨0, 0, 0⟩
    m_rotation := ⟨1, 0, 0, 0⟩
    m_character_object := some 1
    m_rotation_buffer := ⟨1, 0, 0, 0⟩
    m_rotation_dirty := false
    m_original_camera_mode := 0
    m_is_free_camera := false }

/-! ## Binary32 evaluation of `calculateFPS`

The same member function with every `float` operation rounded as IEEE 754
binary32 prescribes: the exact result is rounded to the nearest representable
value, ties to even, each operation on its own (no fused or extended-precision
evaluation). This is the embedding used wherever a statement is about the
integer the code stores and does not stipulate exact arithmetic. -/

namespace Binary32

/-- A binary32 datum: a finite value, an infinity or a NaN. The sign of a zero
is not represented; it would only decide the sign of an infinite quotient. -/
inductive Value where
  | finite (q : ℚ)
  | infinite (negative : Bool)
  | nan
  deriving DecidableEq

/-- Rounding to the nearest integer, ties to the even one. -/
def roundHalfEven (x : ℚ) : Int :=
  if x - ⌊x⌋ < 1 / 2 then ⌊x⌋
  else if 1 / 2 < x - ⌊x⌋ then ⌊x⌋ + 1
  else if ⌊x⌋ % 2 = 0 then ⌊x⌋
  else ⌊x⌋ + 1

/-- Exponent of the binade of a nonzero `q`, that is `floor (log2 |q|)`, but not
below -126: the subnormal values share the spacing of the first normal binade. -/
def binade (q : ℚ) : Int := max (Int.log 2 |q|) (-126)

/-- Spacing of the binary32 values around `q` (24 significant bits). -/
def ulp (q : ℚ) : ℚ := 2 ^ (binade q - 23)

/-- The binary32 value of an exact result `q`: the nearest multiple of the
spacing, ties to even, and an infinity of the same sign when that multiple
reaches 2^128. -/
def roundNearest (q : ℚ) : Value :=
  if q = 0 then Value.finite 0
  else if |(roundHalfEven (q / ulp q) : ℚ) * ulp q| < 2 ^ 128 then
    Value.finite (roundHalfEven (q / ulp q) * ulp q)
  else Value.infinite (decide (q < 0))

/-- Negation. -/
def neg : Value → Value
  | Value.finite a => Value.finite (-a)
  | Value.infinite s => Value.infinite (!s)
  | Value.nan => Value.nan

/-- Binary32 addition. -/
def add : Value → Value → Value
  | Value.finite a, Value.finite b => roundNearest (a + b)
  | Value.finite _, Value.infinite s => Value.infinite s
  | Value.infinite s, Value.finite _ => Value.infinite s
  | Value.infinite s, Value.infinite t => if s = t then Value.infinite s else Value.nan
  | Value.nan, _ => Value.nan
  | _, Value.nan => Value.nan

/-- Binary32 subtraction. -/
def sub (a b : Value) : Value := add a (neg b)

/-- Binary32 multiplication. -/
def mul : Value → Value → Value
  | Value.finite a, Value.finite b => roundNearest (a * b)
  | Value.finite a, Value.infinite s =>
    if a = 0 then Value.nan else Value.infinite (xor s (decide (a < 0)))
  | Value.infinite s, Value.finite b =>
    if b = 0 then Value.nan else Value.infinite (xor s (decide (b < 0)))
  | Value.infinite s, Value.infinite t => Value.infinite (xor s t)
  | Value.nan, _ => Value.nan
  | _, Value.nan => Value.nan

/-- Binary32 division. A nonzero value divided by zero is an infinity, whose
sign is taken from the dividend (the zero is read as positive). -/
def div : Value → Value → Value
  | Value.finite a, Value.finite b =>
    if b = 0 then (if a = 0 then Value.nan else Value.infinite (decide (a < 0)))
    else roundNearest (a / b)
  | Value.finite _, Value.infinite _ => Value.finite 0
  | Value.infinite s, Value.finite b => Value.infinite (xor s (decide (b < 0)))
  | Value.infinite _, Value.infinite _ => Value.nan
  | Value.nan, _ => Value.nan
  | _, Value.nan => Value.nan

/-- Conversion `static_cast<int>(x)` of a binary32 value: the truncated value
when `x` is finite and the truncation is representable in `int`, and no defined
value otherwise. -/
def staticCastInt : Value → Option Int
  | Value.finite q =>
    if INT_MIN ≤ truncate q ∧ truncate q ≤ INT_MAX then some (truncate q) else none
  | _ => none

/-- The members of `ZentiaEngine` that `calculateFPS` reads and writes. -/
structure ZentiaEngine where
  m_average_duration : Value
  m_frame_count : Nat
  m_fps : Option Int

/-- Smoothing constant `s_fps_alpha = 1.f / 100`, the binary32 nearest to 1/100. -/
def s_fps_alpha : Value := div (Value.finite 1) (Value.finite 100)

/-- Embedding of `ZentiaEngine::calculateFPS` in binary32 arithmetic. -/
def calculateFPS (e : ZentiaEngine) (delta_time : Value) : ZentiaEngine :=
  let frame_count := e.m_frame_count + 1
  let average_duration :=
    if frame_count = 1 then delta_time
    else add (mul e.m_average_duration (sub (Value.finite 1) s_fps_alpha))
      (mul delta_time s_fps_alpha)
  { m_frame_count := frame_count
    m_average_duration := average_duration
    m_fps := staticCastInt (div (Value.finite 1) average_duration) }

/-- Engine state after the samples `d 1, ..., d n`, one call per sample. -/
def afterSamples (e : ZentiaEngine) (d : Nat → Value) : Nat → ZentiaEngine
  | 0 => e
  | n + 1 => calculateFPS (afterSamples e d n) (d (n + 1))

/-- A scheduler that has not sampled any frame yet. -/
def freshEngine : ZentiaEngine :=
  { m_average_duration := Value.finite 0, m_frame_count := 0, m_fps := some 0 }

end Binary32

/-! ## The FPS smoother -/

theorem truncate_of_nonneg {q : ℚ} (h : 0 ≤ q) : truncate q = ⌊q⌋ := by
  simp [truncate, h]

theorem staticCastInt_some {q : ℚ} {v : Int} (hv : truncate q = v) (hlo : INT_MIN ≤ v)
    (hhi : v ≤ INT_MAX) : staticCastInt (some q) = some v := by
  simp [staticCastInt, hv, hlo, hhi]

theorem floatDiv_of_ne_zero (a : ℚ) {b : ℚ} (hb : b ≠ 0) : floatDiv a b = some (a / b) := by
  simp [floatDiv, hb]

theorem calculateFPS_average_first (e : ZentiaEngine) (x : ℚ) (h : e.m_frame_count = 0) :
    (calculateFPS e x).m_average_duration = x := by
  simp [calculateFPS, h]

theorem calculateFPS_average_later (e : ZentiaEngine) (x : ℚ) (h : e.m_frame_count ≠ 0) :
    (calculateFPS e x).m_average_duration
      = e.m_average_duration * (1 - 1 / 100) + x * (1 / 100) := by
  simp [calculateFPS, h, s_fps_alpha]

theorem calculateFPS_fps (e : ZentiaEngine) (x : ℚ) :
    (calculateFPS e x).m_fps
      = staticCastInt (floatDiv 1 (calculateFPS e x).m_average_duration) := rfl

theorem calculateFPS_frame_count (e : ZentiaEngine) (x : ℚ) :
    (calculateFPS e x).m_frame_count = e.m_frame_count + 1 := rfl

theorem calculateFPS_last_tick (e : ZentiaEngine) (t x : ℚ) :
    calculateFPS { e with m_last_tick_time_point := t } x
      = { calculateFPS e x with m_last_tick_time_point := t } := rfl

theorem afterSamples_frame_count (e : ZentiaEngine) (d : Nat → ℚ) (n : Nat) :
    (afterSamples e d n).m_frame_count = e.m_frame_count + n := by
  induction n with
  | zero => rfl
  | succ n ih => simp [afterSamples, calculateFPS_frame_count, ih, Nat.add_assoc]

theorem afterSamples_one (e : ZentiaEngine) (d : Nat → ℚ) (h : e.m_frame_count = 0) :
    (afterSamples e d 1).m_average_duration = d 1 := by
  simp [afterSamples, calculateFPS_average_first, h]

theorem afterSamples_succ_succ (e : ZentiaEngine) (d : Nat → ℚ) (n : Nat) :
    (afterSamples e d (n + 2)).m_average_duration
      = (afterSamples e d (n + 1)).m_average_duration * (1 - 1 / 100)
        + d (n + 2) * (1 / 100) := by
  have hc : (afterSamples e d (n + 1)).m_frame_count ≠ 0 := by
    rw [afterSamples_frame_count]; omega
  exact calculateFPS_average_later _ _ hc

theorem afterSamples_succ_fps (e : ZentiaEngine) (d : Nat → ℚ) (n : Nat) :
    (afterSamples e d (n + 1)).m_fps
      = staticCastInt (floatDiv 1 (afterSamples e d (n + 1)).m_average_duration) := rfl

theorem afterSamples_last_tick (e : ZentiaEngine) (t : ℚ) (d : Nat → ℚ) (n : Nat) :
    afterSamples { e with m_last_tick_time_point := t } d n
      = { afterSamples e d n with m_last_tick_time_point := t } := by
  induction n with
  | zero => rfl
  | succ n ih => simp only [afterSamples, ih, calculateFPS_last_tick]

theorem afterSamples_congr (e : ZentiaEngine) (d d' : Nat → ℚ) (n : Nat)
    (h : ∀ j, 1 ≤ j → j ≤ n → d j = d' j) : afterSamples e d n = afterSamples e d' n := by
  induction n with
  | zero => rfl
  | succ n ih =>
    simp only [afterSamples]
    rw [ih (fun j h1 h2 => h j h1 (Nat.le_succ_of_le h2)), h (n + 1) (by omega) (le_refl _)]

theorem afterSamples_shift (e : ZentiaEngine) (d : Nat → ℚ) (n : Nat) :
    afterSamples (calculateFPS e (d 1)) (fun j => d (j + 1)) n = afterSamples e d (n + 1) := by
  induction n with
  | zero => rfl
  | succ n ih => simp only [afterSamples] at ih ⊢; rw [ih]

/-- Closed form of the moving average, indexed from the second sample on. -/
theorem afterSamples_closed_form (e : ZentiaEngine) (d : Nat → ℚ) (h : e.m_frame_count = 0)
    (n : Nat) :
    (afterSamples e d (n + 1)).m_average_duration
      = (99 / 100 : ℚ) ^ n * d 1
        + ∑ k in Finset.Icc 2 (n + 1), (1 / 100 : ℚ) * (99 / 100) ^ (n + 1 - k) * d k := by
  induction n with
  | zero => simp [afterSamples_one e d h]
  | succ n ih =>
    rw [afterSamples_succ_succ, ih, Finset.sum_Icc_succ_top (by omega : 2 ≤ n + 1 + 1)]
    have hs : ∑ k in Finset.Icc 2 (n + 1), (1 / 100 : ℚ) * (99 / 100) ^ (n + 1 + 1 - k) * d k
        = (99 / 100 : ℚ) * ∑ k in Finset.Icc 2 (n + 1),
            (1 / 100 : ℚ) * (99 / 100) ^ (n + 1 - k) * d k := by
      rw [Finset.mul_sum]
      refine Finset.sum_congr rfl (fun k hk => ?_)
      have hk2 : k ≤ n + 1 := (Finset.mem_Icc.mp hk).2
      have : n + 1 + 1 - k = (n + 1 - k) + 1 := by omega
      rw [this, pow_succ]
      ring
    rw [hs, Nat.sub_self, pow_zero, pow_succ]
    ring

theorem staticCastInt_none {q : ℚ} {v : Int} (hv : truncate q = v) (hhi : INT_MAX < v) :
    staticCastInt (some q) = none := by
  simp only [staticCastInt, hv]
  rw [if_neg]
  intro h
  exact absurd h.2 (not_le.mpr hhi)

/-- First sample on a fresh engine: the average is the sample. -/
theorem freshEngine_first_average (x : ℚ) :
    (calculateFPS freshEngine x).m_average_duration = x :=
  calculateFPS_average_first freshEngine x rfl

/-- First sample on a fresh engine: the fps is the conversion of `1 / x`. -/
theorem freshEngine_first_fps (x : ℚ) :
    (calculateFPS freshEngine x).m_fps = staticCastInt (floatDiv 1 x) := by
  rw [calculateFPS_fps, freshEngine_first_average]

/-! ## Binary32 rounding -/

theorem bind_apply {α β : Type} (s : Step α) (f : α → Step β) (m : Machine) :
    (s >>= f) m = Step.bind s f m := rfl

theorem pure_apply {α : Type} (a : α) (m : Machine) :
    (pure a : Step α) m = Result.ok a m := rfl

theorem tickOneFrame_eq (m : Machine) (delta_time : ℚ) (h : m.collaboratorsPresent) :
    tickOneFrame delta_time m
      = Result.ok (!(m.closeAnswers m.closeQueries))
          { m with
            engine := calculateFPS m.engine delta_time
            closeQueries := m.closeQueries + 1
            log := m.log ++ frameCalls m.physicsDebugRenderer
                    (calculateFPS m.engine delta_time).m_fps delta_time
                    (m.closeAnswers m.closeQueries) } := by
  obtain ⟨h1, h2, h3, h4, h5⟩ := h
  cases hd : m.physicsDebugRenderer
  · simp [tickOneFrame, logicalTick, rendererTick, physicsDebugRender, stepCalculateFPS, call,
      shouldClose, bind_apply, pure_apply, Step.bind, h1, h2, h3, h4, hd, frameCalls, getFPS]
  · have h6 := h5 hd
    simp [tickOneFrame, logicalTick, rendererTick, physicsDebugRender, stepCalculateFPS, call,
      shouldClose, bind_apply, pure_apply, Step.bind, h1, h2, h3, h4, h6, hd, frameCalls, getFPS]

theorem concatCalls_succ_front (f : Nat → List Call) (k : Nat) :
    concatCalls f (k + 1) = f 0 ++ concatCalls (fun i => f (i + 1)) k := by
  induction k with
  | zero => simp [concatCalls]
  | succ k ih => rw [concatCalls, ih, concatCalls, List.append_assoc]

theorem runLoop_closing (m : Machine) (fuel : Nat) (hw : m.context.m_window_system = true)
    (h : headAnswer m 0 = true) : runLoop fuel m = Result.ok () (closeAtHead m) := by
  simp only [headAnswer, Nat.mul_zero, Nat.add_zero] at h
  cases fuel <;>
    simp [runLoop, bind_apply, Step.bind, shouldClose, hw, h, pure_apply, closeAtHead]

theorem runLoop_zero_continue (m : Machine) (hw : m.context.m_window_system = true)
    (h : headAnswer m 0 = false) :
    runLoop 0 m = Result.halt Halt.outOfFuel
      { m with closeQueries := m.closeQueries + 1, log := m.log ++ [Call.shouldClose false] } := by
  simp only [headAnswer, Nat.mul_zero, Nat.add_zero] at h
  simp [runLoop, bind_apply, Step.bind, shouldClose, hw, h]

theorem frameDelta_one (m : Machine) :
    frameDelta m 1 = m.clock m.clockReads - m.engine.m_last_tick_time_point := by
  simp [frameDelta]

theorem calculateDeltaTime_eq (m : Machine) :
    calculateDeltaTime m
      = Result.ok (m.clock m.clockReads - m.engine.m_last_tick_time_point)
          { m with
            clockReads := m.clockReads + 1
            log := m.log ++ [Call.steadyClockNow]
            engine := { m.engine with m_last_tick_time_point := m.clock m.clockReads } } := rfl

theorem shouldClose_eq (m : Machine) (hw : m.context.m_window_system = true) :
    shouldClose m
      = Result.ok (m.closeAnswers m.closeQueries)
          { m with
            closeQueries := m.closeQueries + 1
            log := m.log ++ [Call.shouldClose (m.closeAnswers m.closeQueries)] } := by
  simp [shouldClose, hw]

theorem runLoop_succ (fuel : Nat) (m : Machine) :
    runLoop (fuel + 1) m
      = Step.bind shouldClose (fun closing =>
          if closing then pure ()
          else Step.bind calculateDeltaTime (fun delta_time =>
            Step.bind (tickOneFrame delta_time) (fun _ => runLoop fuel))) m := by
  simp only [runLoop, bind_apply]
  rfl

theorem runLoop_continue (m : Machine) (fuel : Nat) (hp : m.collaboratorsPresent)
    (h : headAnswer m 0 = false) : runLoop (fuel + 1) m = runLoop fuel (loopIteration m) := by
  simp only [headAnswer, Nat.mul_zero, Nat.add_zero] at h
  have hw := hp.2.2.2.1
  have hp' : Machine.collaboratorsPresent
      { m with
        closeQueries := m.closeQueries + 1
        clockReads := m.clockReads + 1
        log := m.log ++ [Call.shouldClose false] ++ [Call.steadyClockNow]
        engine := { m.engine with m_last_tick_time_point := m.clock m.clockReads } } := hp
  rw [runLoop_succ, Step.bind, shouldClose_eq m hw, h]
  simp only [Bool.false_eq_true, if_false, Step.bind, calculateDeltaTime_eq]
  rw [tickOneFrame_eq _ _ hp']
  simp only [loopIteration, iterationCalls, afterSamples, frameDelta_one, calculateFPS_last_tick,
    Nat.mul_zero, Nat.add_zero, Nat.zero_add, h, List.append_assoc, List.singleton_append,
    List.cons_append, List.nil_append]

theorem loopIteration_present (m : Machine) (hp : m.collaboratorsPresent) :
    (loopIteration m).collaboratorsPresent := hp

theorem headAnswer_loopIteration (m : Machine) (i : Nat) :
    headAnswer (loopIteration m) i = headAnswer m (i + 1) := by
  simp only [headAnswer, loopIteration]
  congr 1
  omega

theorem frameDelta_loopIteration (m : Machine) (j : Nat) (hj : 1 ≤ j) :
    frameDelta (loopIteration m) j = frameDelta m (j + 1) := by
  have h1 : ¬ (j + 1 ≤ 1) := by omega
  have e1 : m.clockReads + 1 + j - 1 = m.clockReads + (j + 1) - 1 := by omega
  simp only [frameDelta, loopIteration, h1, if_false, e1]
  by_cases h2 : j ≤ 1
  · have : j = 1 := by omega
    subst this
    simp [calculateFPS]
  · have e2 : m.clockReads + 1 + j - 2 = m.clockReads + (j + 1) - 2 := by omega
    simp only [h2, if_false, e2]

theorem iterationCalls_loopIteration (m : Machine) (i : Nat) :
    iterationCalls (loopIteration m) i = iterationCalls m (i + 1) := by
  have hfps : (afterSamples (loopIteration m).engine (frameDelta (loopIteration m)) (i + 1)).m_fps
      = (afterSamples m.engine (frameDelta m) (i + 1 + 1)).m_fps := by
    rw [afterSamples_congr _ (frameDelta (loopIteration m)) (fun j => frameDelta m (j + 1)) (i + 1)
      (fun j h1 _ => frameDelta_loopIteration m j h1)]
    have he : (loopIteration m).engine
        = { calculateFPS m.engine (frameDelta m 1) with
            m_last_tick_time_point := m.clock m.clockReads } := by
      simp only [loopIteration, calculateFPS_last_tick, frameDelta_one]
    rw [he, afterSamples_last_tick, afterSamples_shift]
  have hq : m.closeQueries + 2 + 2 * i + 1 = m.closeQueries + 2 * (i + 1) + 1 := by omega
  simp only [iterationCalls, hfps, frameDelta_loopIteration m (i + 1) (by omega)]
  simp only [loopIteration, hq]

theorem runLoop_returns (k : Nat) : ∀ (m : Machine) (fuel : Nat), m.collaboratorsPresent →
    (∀ i, i < k → headAnswer m i = false) → headAnswer m k = true → k ≤ fuel →
    ∃ m1, runLoop fuel m = Result.ok () m1 ∧
      m1.log = m.log ++ concatCalls (iterationCalls m) k ++ [Call.shouldClose true] := by
  induction k with
  | zero =>
    intro m fuel hp _ htrue _
    exact ⟨closeAtHead m, runLoop_closing m fuel hp.2.2.2.1 htrue,
      by simp [closeAtHead, concatCalls]⟩
  | succ k ih =>
    intro m fuel hp hfalse htrue hfuel
    obtain ⟨f, rfl⟩ : ∃ f, fuel = f + 1 := ⟨fuel - 1, by omega⟩
    obtain ⟨m1, hrun, hlog⟩ := ih (loopIteration m) f (loopIteration_present m hp)
      (fun i hi => by rw [headAnswer_loopIteration]; exact hfalse (i + 1) (by omega))
      (by rw [headAnswer_loopIteration]; exact htrue) (by omega)
    refine ⟨m1, ?_, ?_⟩
    · rw [runLoop_continue m f hp (hfalse 0 (by omega))]; exact hrun
    · rw [hlog, concatCalls_succ_front]
      have hf : iterationCalls (loopIteration m) = fun i => iterationCalls m (i + 1) :=
        funext (iterationCalls_loopIteration m)
      rw [hf]
      simp only [loopIteration, List.append_assoc]

theorem runLoop_only_returns_on_close (fuel : Nat) : ∀ (m m1 : Machine), m.collaboratorsPresent →
    runLoop fuel m = Result.ok () m1 →
    ∃ k, k ≤ fuel ∧ (∀ i, i < k → headAnswer m i = false) ∧ headAnswer m k = true := by
  induction fuel with
  | zero =>
    intro m m1 hp h
    cases hh : headAnswer m 0
    · rw [runLoop_zero_continue m hp.2.2.2.1 hh] at h
      exact Result.noConfusion h
    · exact ⟨0, le_refl _, fun i hi => absurd hi (Nat.not_lt_zero i), hh⟩
  | succ f ih =>
    intro m m1 hp h
    cases hh : headAnswer m 0
    · rw [runLoop_continue m f hp hh] at h
      obtain ⟨k, hk, hfalse, htrue⟩ := ih (loopIteration m) m1 (loopIteration_present m hp) h
      refine ⟨k + 1, by omega, ?_, by rw [← headAnswer_loopIteration]; exact htrue⟩
      intro i hi
      cases i with
      | zero => exact hh
      | succ i => rw [← headAnswer_loopIteration]; exact hfalse i (by omega)
    · exact ⟨0, by omega, fun i hi => absurd hi (Nat.not_lt_zero i), hh⟩

theorem run_eq_runLoop (m : Machine) (fuel : Nat) (hw : m.context.m_window_system = true) :
    run fuel m = runLoop fuel m := by
  simp [run, ASSERT, bind_apply, Step.bind, hw]

theorem count_swap_frameCalls (debug : Bool) (fps : Option Int) (x : ℚ) (answer : Bool) :
    (frameCalls debug fps x answer).count Call.swapLogicRenderData = 1 := by
  cases debug <;> simp [frameCalls, List.count_cons]

theorem count_swap_concatCalls (m : Machine) (k : Nat) :
    (concatCalls (iterationCalls m) k).count Call.swapLogicRenderData = k := by
  induction k with
  | zero => rfl
  | succ k ih =>
    rw [concatCalls, List.count_append, ih, iterationCalls, List.count_append,
      count_swap_frameCalls]
    simp [List.count_cons]

/-! ## Claims -/

/-- C1. With every collaborator present, one call of `tickOneFrame(deltaTime)`
returns and appends to the log exactly: world tick(deltaTime), input tick, FPS
bookkeeping with the same deltaTime, swapLogicRenderData, render tick(deltaTime),
the physics debug render(deltaTime) only when the debug renderer is compiled in,
pollEvents, setTitle, shouldClose; the swap occurs exactly once in that
sequence, and the engine is left in the state computed by the bookkeeping. -/
theorem tickOneFrame_call_sequence (m : Machine) (delta_time : ℚ)
    (h : m.collaboratorsPresent) :
    (tickOneFrame delta_time m).halted = none ∧
    (tickOneFrame delta_time m).machine.log
      = m.log
        ++ [Call.worldTick delta_time, Call.inputTick, Call.calculateFPS delta_time,
            Call.swapLogicRenderData, Call.renderTick delta_time]
        ++ (if m.physicsDebugRenderer then [Call.renderPhysicsWorld delta_time] else [])
        ++ [Call.pollEvents,
            Call.setTitle (windowTitle (getFPS (calculateFPS m.engine delta_time))),
            Call.shouldClose (m.closeAnswers m.closeQueries)] ∧
    ((tickOneFrame delta_time m).machine.log.drop m.log.length).count Call.swapLogicRenderData
      = 1 ∧
    (tickOneFrame delta_time m).machine.engine = calculateFPS m.engine delta_time := by
  rw [tickOneFrame_eq m delta_time h]
  refine ⟨rfl, ?_, ?_, rfl⟩
  · simp [Result.machine, frameCalls, getFPS]
  · simp only [Result.machine, List.drop_left]
    exact count_swap_frameCalls _ _ _ _

/-- Witness of C1: one frame of 1/50 s on the sample machine. -/
theorem tickOneFrame_call_sequence_witness :
    sampleMachine.collaboratorsPresent ∧
    (tickOneFrame (1 / 50) sampleMachine).machine.log
      = [Call.worldTick (1 / 50), Call.inputTick, Call.calculateFPS (1 / 50),
          Call.swapLogicRenderData, Call.renderTick (1 / 50), Call.pollEvents,
          Call.setTitle (some "Zentia - 50 FPS"), Call.shouldClose false] := by
  have hp : sampleMachine.collaboratorsPresent := by
    simp [Machine.collaboratorsPresent, sampleMachine]
  refine ⟨hp, ?_⟩
  have hfps : getFPS (calculateFPS sampleMachine.engine (1 / 50)) = some 50 := by
    have ht : truncate (1 / (1 / 50)) = 50 := by
      rw [truncate_of_nonneg (by norm_num)]; norm_num
    show (calculateFPS freshEngine (1 / 50)).m_fps = some 50
    rw [freshEngine_first_fps, floatDiv_of_ne_zero 1 (by norm_num)]
    exact staticCastInt_some ht (by decide) (by decide)
  have ht : windowTitle (some 50) = some "Zentia - 50 FPS" := by decide
  rw [(tickOneFrame_call_sequence sampleMachine (1 / 50) hp).2.1, hfps, ht]
  simp [sampleMachine]

/-- C2. `calculateFPS` is the exponential moving average with alpha = 1/100: a
first sample (frame count 0 before the call) overwrites the average with
`deltaTime` whatever it was, a later sample gives
`old * (1 - 1/100) + deltaTime * (1/100)`, and after the samples `d 1 .. d n`
the average is `0.99^(n-1) * d 1 + sum over k = 2..n of 0.01 * 0.99^(n-k) * d k`. -/
theorem calculateFPS_exponential_moving_average (e : ZentiaEngine) (d : Nat → ℚ) :
    (∀ x : ℚ, e.m_frame_count = 0 →
        (calculateFPS e x).m_frame_count = 1 ∧ (calculateFPS e x).m_average_duration = x) ∧
    (∀ x : ℚ, e.m_frame_count ≠ 0 →
        (calculateFPS e x).m_average_duration
          = e.m_average_duration * (1 - 1 / 100) + x * (1 / 100)) ∧
    (e.m_frame_count = 0 → ∀ n : Nat, 1 ≤ n →
        (afterSamples e d n).m_average_duration
          = (99 / 100 : ℚ) ^ (n - 1) * d 1
            + ∑ k in Finset.Icc 2 n, (1 / 100 : ℚ) * (99 / 100) ^ (n - k) * d k) := by
  refine ⟨fun x h => ⟨by rw [calculateFPS_frame_count, h], calculateFPS_average_first e x h⟩,
    fun x h => calculateFPS_average_later e x h, fun h n hn => ?_⟩
  obtain ⟨n, rfl⟩ : ∃ j, n = j + 1 := ⟨n - 1, by omega⟩
  simpa using afterSamples_closed_form e d h n

/-- Witness of C2 on a fresh engine fed the samples 1, 2, 3. -/
theorem calculateFPS_exponential_moving_average_witness :
    freshEngine.m_frame_count = 0 ∧
    (afterSamples freshEngine (fun k => (k : ℚ)) 3).m_average_duration
      = (99 / 100 : ℚ) ^ (3 - 1) * ((1 : Nat) : ℚ)
        + ∑ k in Finset.Icc 2 3, (1 / 100 : ℚ) * (99 / 100) ^ (3 - k) * ((k : Nat) : ℚ) :=
  ⟨rfl, (calculateFPS_exponential_moving_average freshEngine (fun k => (k : ℚ))).2.2 rfl 3
    (by decide)⟩

/-- C4 (counterexample). A first sample with deltaTime = 0 leaves the average at
zero, the quotient `1.f / m_average_duration` is then taken with a zero divisor,
and the fps read afterwards is not the sentinel 0. -/
theorem calculateFPS_zero_average_no_sentinel :
    (calculateFPS freshEngine 0).m_average_duration = 0 ∧
    floatDiv 1 (calculateFPS freshEngine 0).m_average_duration = none ∧
    getFPS (calculateFPS freshEngine 0) ≠ some 0 := by
  simp [calculateFPS, freshEngine, floatDiv, staticCastInt, getFPS]

/-- C4 (amended). When the average computed by a call is zero, `calculateFPS`
still divides by it: no guard exists, the quotient is not finite and the fps
holds no defined value, in particular not a sentinel 0. This is the case after
any positive number of samples that are all zero. The call itself returns with
the average and the frame count updated. -/
theorem calculateFPS_zero_average_unguarded (e : ZentiaEngine) (d : Nat → ℚ) :
    (∀ x : ℚ, (calculateFPS e x).m_average_duration = 0 →
      floatDiv 1 (calculateFPS e x).m_average_duration = none ∧
      (calculateFPS e x).m_fps = none ∧
      (calculateFPS e x).m_frame_count = e.m_frame_count + 1) ∧
    (e.m_frame_count = 0 → (∀ k, d k = 0) → ∀ n : Nat, 1 ≤ n →
      (afterSamples e d n).m_average_duration = 0 ∧ (afterSamples e d n).m_fps = none) := by
  have key : ∀ x : ℚ, (calculateFPS e x).m_average_duration = 0 →
      floatDiv 1 (calculateFPS e x).m_average_duration = none ∧
      (calculateFPS e x).m_fps = none ∧
      (calculateFPS e x).m_frame_count = e.m_frame_count + 1 := by
    intro x h
    refine ⟨by simp [h, floatDiv], ?_, rfl⟩
    rw [calculateFPS_fps, h]
    simp [floatDiv, staticCastInt]
  refine ⟨key, fun he hd n hn => ?_⟩
  obtain ⟨n, rfl⟩ : ∃ j, n = j + 1 := ⟨n - 1, by omega⟩
  have havg : (afterSamples e d (n + 1)).m_average_duration = 0 := by
    rw [afterSamples_closed_form e d he n]
    simp [hd]
  refine ⟨havg, ?_⟩
  rw [afterSamples_succ_fps, havg]
  simp [floatDiv, staticCastInt]

/-- Witness of C4 (amended): three zero samples on a fresh engine. -/
theorem calculateFPS_zero_average_unguarded_witness :
    (afterSamples freshEngine (fun _ => 0) 3).m_average_duration = 0 ∧
    (afterSamples freshEngine (fun _ => 0) 3).m_fps = none :=
  (calculateFPS_zero_average_unguarded freshEngine (fun _ => 0)).2 rfl (fun _ => rfl) 3
    (by decide)

/-- Under a constant stream after the first sample, each call shrinks the signed
distance to the constant by the factor 99/100. -/
theorem afterSamples_distance_step (e : ZentiaEngine) (d : Nat → ℚ) (c : ℚ)
    (hd : ∀ k, 2 ≤ k → d k = c) (n : Nat) :
    (afterSamples e d (n + 2)).m_average_duration - c
      = 99 / 100 * ((afterSamples e d (n + 1)).m_average_duration - c) := by
  rw [afterSamples_succ_succ, hd (n + 2) (by omega)]
  ring

/-- Under a constant stream after the first sample, the signed distance to the
constant is the warm-up distance scaled by a power of 99/100. -/
theorem afterSamples_distance (e : ZentiaEngine) (d : Nat → ℚ) (c : ℚ)
    (he : e.m_frame_count = 0) (hd : ∀ k, 2 ≤ k → d k = c) (n : Nat) :
    (afterSamples e d (n + 1)).m_average_duration - c = (99 / 100 : ℚ) ^ n * (d 1 - c) := by
  induction n with
  | zero => simp [afterSamples_one e d he]
  | succ n ih => rw [afterSamples_distance_step e d c hd n, ih, pow_succ]; ring

/-- C5 (counterexample). When the warm-up sample already equals `d`, the
distance to `d` is 0 after every call and does not strictly decrease: with all
samples equal to 1 the distance after the third call is not below the distance
after the second. -/
theorem fps_distance_not_strictly_decreasing :
    ¬ (|(afterSamples freshEngine (fun _ => 1) 3).m_average_duration - 1|
        < |(afterSamples freshEngine (fun _ => 1) 2).m_average_duration - 1|) := by
  have h3 := afterSamples_distance freshEngine (fun _ => 1) 1 rfl (fun _ _ => rfl) 2
  have h2 := afterSamples_distance freshEngine (fun _ => 1) 1 rfl (fun _ _ => rfl) 1
  simp only [sub_self, mul_zero] at h2 h3
  rw [h2, h3]
  exact lt_irrefl _

/-- C5 (amended). On an engine that has not sampled yet, if every sample after
the first equals `c`, then for every `n ≥ 1` the average after call `n + 1` is
at least as close to `c` as after call `n`; the distance is strictly decreasing
exactly when the warm-up sample differs from `c`, and when it equals `c` the
average is `c` after every call. The approach is monotone and never overshoots:
the average stays on the side of `c` where the warm-up sample was. -/
theorem fps_average_converges (e : ZentiaEngine) (d : Nat → ℚ) (c : ℚ)
    (he : e.m_frame_count = 0) (hd : ∀ k, 2 ≤ k → d k = c) (n : Nat) (hn : 1 ≤ n) :
    |(afterSamples e d (n + 1)).m_average_duration - c|
      ≤ |(afterSamples e d n).m_average_duration - c| ∧
    (d 1 ≠ c → |(afterSamples e d (n + 1)).m_average_duration - c|
      < |(afterSamples e d n).m_average_duration - c|) ∧
    (d 1 = c → (afterSamples e d n).m_average_duration = c) ∧
    (d 1 ≤ c → (afterSamples e d n).m_average_duration
        ≤ (afterSamples e d (n + 1)).m_average_duration ∧
      (afterSamples e d (n + 1)).m_average_duration ≤ c) ∧
    (c ≤ d 1 → c ≤ (afterSamples e d (n + 1)).m_average_duration ∧
      (afterSamples e d (n + 1)).m_average_duration
        ≤ (afterSamples e d n).m_average_duration) := by
  obtain ⟨n, rfl⟩ : ∃ j, n = j + 1 := ⟨n - 1, by omega⟩
  have hstep := afterSamples_distance_step e d c hd n
  have hdist := afterSamples_distance e d c he hd n
  have hpow : (0 : ℚ) < (99 / 100 : ℚ) ^ n := by positivity
  have habs : |(afterSamples e d (n + 1 + 1)).m_average_duration - c|
      = 99 / 100 * |(afterSamples e d (n + 1)).m_average_duration - c| := by
    rw [hstep, abs_mul, abs_of_pos (by norm_num : (0 : ℚ) < 99 / 100)]
  refine ⟨?_, fun hne => ?_, fun heq => ?_, fun hle => ?_, fun hge => ?_⟩
  · rw [habs]
    have := abs_nonneg ((afterSamples e d (n + 1)).m_average_duration - c)
    linarith
  · have hpos : 0 < |(afterSamples e d (n + 1)).m_average_duration - c| := by
      rw [abs_pos, hdist]
      exact mul_ne_zero (ne_of_gt hpow) (sub_ne_zero.mpr hne)
    rw [habs]
    linarith
  · have : (afterSamples e d (n + 1)).m_average_duration - c = 0 := by
      rw [hdist, heq, sub_self, mul_zero]
    linarith
  · have h1 : (afterSamples e d (n + 1)).m_average_duration - c ≤ 0 := by
      rw [hdist]
      exact mul_nonpos_of_nonneg_of_nonpos (le_of_lt hpow) (by linarith)
    constructor <;> linarith
  · have h1 : 0 ≤ (afterSamples e d (n + 1)).m_average_duration - c := by
      rw [hdist]
      exact mul_nonneg (le_of_lt hpow) (by linarith)
    constructor <;> linarith

/-- Witness of C5 (amended): warm-up sample 1, then a constant stream of 1/50 s,
between the second and the third call. -/
theorem fps_average_converges_witness :
    |(afterSamples freshEngine (fun k => if k = 1 then 1 else 1 / 50) (2 + 1)).m_average_duration
        - 1 / 50|
      < |(afterSamples freshEngine (fun k => if k = 1 then 1 else 1 / 50) 2).m_average_duration
        - 1 / 50| :=
  (fps_average_converges freshEngine (fun k => if k = 1 then 1 else 1 / 50) (1 / 50) rfl
    (fun k hk => by
      have : k ≠ 1 := by omega
      simp [this])
    2 (by decide)).2.1 (by norm_num)

/-- C6 (counterexample). `setRotation` with a new rotation changes the value
returned by `getRotation` at once, and stages nothing: the rotation buffer is
not written and the dirty flag stays clear. -/
theorem setRotation_not_deferred :
    (sampleCharacter.setRotation ⟨0, 1, 0, 0⟩).getRotation ≠ sampleCharacter.getRotation ∧
    (sampleCharacter.setRotation ⟨0, 1, 0, 0⟩).m_rotation_buffer ≠ ⟨0, 1, 0, 0⟩ ∧
    (sampleCharacter.setRotation ⟨0, 1, 0, 0⟩).m_rotation_dirty = false := by
  simp [Character.setRotation, Character.getRotation, sampleCharacter]

/-- C6 (amended). `setRotation(r)` writes the rotation directly: `getRotation()`
returns exactly `r` right after the call, with no commit in between, and the
call leaves the rotation buffer, the dirty flag and the position as they
were. -/
theorem setRotation_takes_effect_immediately (c : Character) (r : Quaternion) :
    (c.setRotation r).getRotation = r ∧
    (c.setRotation r).m_rotation_buffer = c.m_rotation_buffer ∧
    (c.setRotation r).m_rotation_dirty = c.m_rotation_dirty ∧
    (c.setRotation r).getPosition = c.getPosition :=
  ⟨rfl, rfl, rfl, rfl⟩

/-- C7. With every collaborator present, `run` ticks a frame only after a
loop-head `shouldClose()` answered false and returns only when a loop-head
`shouldClose()` answers true. If the loop-head answers of iterations
`0 .. k-1` are false and the one of iteration `k` is true, `run` returns (given
fuel for `k` iterations) after exactly `k` frames: the log grows by `k`
iterations, each made of the loop-head query, one clock reading of
`calculateDeltaTime` and the frame ticked with the delta just computed,
followed by the closing query; it holds exactly `k` swaps. For `k = 0` nothing
but the closing query is logged. Conversely a `run` that returns has met a
loop-head answer true after only false ones. -/
theorem run_ticks_until_close (m : Machine) (hp : m.collaboratorsPresent) :
    (∀ k fuel : Nat, (∀ i, i < k → headAnswer m i = false) → headAnswer m k = true →
      k ≤ fuel →
      ∃ m1, run fuel m = Result.ok () m1 ∧
        m1.log = m.log ++ concatCalls (iterationCalls m) k ++ [Call.shouldClose true] ∧
        (m1.log.drop m.log.length).count Call.swapLogicRenderData = k) ∧
    (headAnswer m 0 = true → ∀ fuel : Nat,
      ∃ m1, run fuel m = Result.ok () m1 ∧ m1.log = m.log ++ [Call.shouldClose true]) ∧
    (∀ (fuel : Nat) (m1 : Machine), run fuel m = Result.ok () m1 →
      ∃ k, k ≤ fuel ∧ (∀ i, i < k → headAnswer m i = false) ∧ headAnswer m k = true) := by
  have hw := hp.2.2.2.1
  refine ⟨fun k fuel hfalse htrue hfuel => ?_, fun htrue fuel => ?_, fun fuel m1 hrun => ?_⟩
  · obtain ⟨m1, hrun, hlog⟩ := runLoop_returns k m fuel hp hfalse htrue hfuel
    refine ⟨m1, by rw [run_eq_runLoop m fuel hw]; exact hrun, hlog, ?_⟩
    rw [hlog, List.append_assoc, List.drop_left, List.count_append, count_swap_concatCalls]
    simp [List.count_cons]
  · refine ⟨closeAtHead m, ?_, rfl⟩
    rw [run_eq_runLoop m fuel hw]
    exact runLoop_closing m fuel hw htrue
  · rw [run_eq_runLoop m fuel hw] at hrun
    exact runLoop_only_returns_on_close fuel m m1 hp hrun

/-- Witness of C7: the sample machine answers "closing" at its fifth query, the
loop-head query of the third iteration, so `run` ticks two frames. -/
theorem run_ticks_until_close_witness :
    sampleMachine.collaboratorsPresent ∧
    ∃ m1, run 5 sampleMachine = Result.ok () m1 ∧
      m1.log = sampleMachine.log ++ concatCalls (iterationCalls sampleMachine) 2
        ++ [Call.shouldClose true] ∧
      (m1.log.drop sampleMachine.log.length).count Call.swapLogicRenderData = 2 :=
  have hp : sampleMachine.collaboratorsPresent := by
    simp [Machine.collaboratorsPresent, sampleMachine]
  ⟨hp, (run_ticks_until_close sampleMachine hp).1 2 5
    (fun i hi => by
      have : i = 0 ∨ i = 1 := by omega
      rcases this with rfl | rfl <;> simp [headAnswer, sampleMachine])
    (by simp [headAnswer, sampleMachine]) (by decide)⟩

/-- C8 (counterexample). With the window system present and the render system
absent, `run` passes its assertion, enters the loop and performs the world
tick, the input tick and the FPS bookkeeping of a frame before it stops on the
null render-system pointer; the stop is not the assertion of `run`. -/
theorem run_without_render_system_enters_loop :
    renderlessMachine.context.m_render_system = false ∧
    (run 1 renderlessMachine).halted = some Halt.nullDereference ∧
    (run 1 renderlessMachine).machine.log
      = [Call.shouldClose false, Call.steadyClockNow, Call.worldTick (1 / 50),
          Call.inputTick, Call.calculateFPS (1 / 50)] := by
  refine ⟨rfl, ?_, ?_⟩ <;>
    simp [run, ASSERT, runLoop, bind_apply, Step.bind, shouldClose, calculateDeltaTime,
      tickOneFrame, logicalTick, stepCalculateFPS, call, renderlessMachine, sampleMachine,
      freshEngine, Result.halted, Result.machine]

/-- C8 (amended). If the window system is absent when `run` is called, `run`
never enters the loop: it stops at once with the machine unchanged (no call is
logged, no frame step performed) and does not return; the stop is the failed
`ASSERT(window_system)` when the assertion is active, and the null window
pointer of the loop head otherwise. -/
theorem run_without_window_system_refuses (m : Machine)
    (h : m.context.m_window_system = false) (fuel : Nat) :
    run fuel m
      = Result.halt (if m.assertActive then Halt.assertionFailed else Halt.nullDereference) m := by
  cases ha : m.assertActive <;> cases fuel <;>
    simp [run, ASSERT, runLoop, bind_apply, Step.bind, shouldClose, h, ha]

/-- Witness of C8 (amended): the sample machine without its window system. -/
theorem run_without_window_system_refuses_witness :
    windowlessMachine.context.m_window_system = false ∧
    run 3 windowlessMachine
      = Result.halt (if windowlessMachine.assertActive then Halt.assertionFailed
          else Halt.nullDereference) windowlessMachine :=
  ⟨rfl, run_without_window_system_refuses windowlessMachine rfl 3⟩

/-- C9. With every collaborator present, `tickOneFrame` returns the "continue
running" flag: its result is the negation of the answer `shouldClose()` gives
when queried as the last step of the frame, right after `pollEvents` and
`setTitle`; it is true exactly when that answer is false, and it is the same
for every deltaTime and every FPS state of the engine. -/
theorem tickOneFrame_returns_continue_flag (m : Machine) (delta_time : ℚ)
    (h : m.collaboratorsPresent) :
    (tickOneFrame delta_time m).value = some (!(m.closeAnswers m.closeQueries)) ∧
    ((tickOneFrame delta_time m).value = some true ↔ m.closeAnswers m.closeQueries = false) ∧
    (∃ before title, (tickOneFrame delta_time m).machine.log
        = before ++ [Call.pollEvents, Call.setTitle title,
            Call.shouldClose (m.closeAnswers m.closeQueries)]) ∧
    (∀ (delta_time' : ℚ) (e' : ZentiaEngine),
      (tickOneFrame delta_time' { m with engine := e' }).value
        = (tickOneFrame delta_time m).value) := by
  refine ⟨?_, ?_, ?_, fun x e' => ?_⟩
  · rw [tickOneFrame_eq m delta_time h]; rfl
  · rw [tickOneFrame_eq m delta_time h]
    cases m.closeAnswers m.closeQueries <;> simp [Result.value]
  · rw [tickOneFrame_eq m delta_time h]
    refine ⟨m.log ++ ([Call.worldTick delta_time, Call.inputTick, Call.calculateFPS delta_time,
        Call.swapLogicRenderData, Call.renderTick delta_time]
        ++ (if m.physicsDebugRenderer then [Call.renderPhysicsWorld delta_time] else [])),
      windowTitle (calculateFPS m.engine delta_time).m_fps, ?_⟩
    simp [Result.machine, frameCalls]
  · have h' : Machine.collaboratorsPresent { m with engine := e' } := h
    rw [tickOneFrame_eq m delta_time h, tickOneFrame_eq _ x h']
    rfl

/-- Witness of C9: the first frame of the sample machine, whose window does not
close yet, returns true. -/
theorem tickOneFrame_returns_continue_flag_witness :
    sampleMachine.collaboratorsPresent ∧
    (tickOneFrame (1 / 50) sampleMachine).value = some true :=
  have hp : sampleMachine.collaboratorsPresent := by
    simp [Machine.collaboratorsPresent, sampleMachine]
  ⟨hp, (tickOneFrame_returns_continue_flag sampleMachine (1 / 50) hp).1.trans
    (by simp [sampleMachine])⟩

end Zentia
